import Mathlib

/-!
# myStromSwitchExporter: the poll cycle of `main.go`

A shallow embedding of `fetchMetrics` and of the poll loop of `main`, together with the
library behaviour they rely on (`godotenv.Load`, `os.Getenv`, `http.Get`,
`json.Decoder.Decode` into `DeviceMetrics`, `log.Printf` / `log.Fatalf`).

* float64 arithmetic is kept abstract: `Float64Ops` supplies `strconv.ParseFloat` and the
  conversion `float64(int64)`; every theorem holds for any such pair of operations.
* a response body is represented by the first JSON value the decoder reads from it
  (`none` when the decoder cannot read a complete, syntactically valid value).
* the process state records, besides the six gauges and the environment, the log lines
  written and the URLs handed to `http.Get`.
-/

namespace MyStromSwitchExporter

/-! ## JSON values -/

/-- A JSON number literal `-? int (. frac)? (e exp)?`; `frac` lists the fraction digits. -/
structure JNumber where
  neg : Bool
  int : Nat
  frac : Option (List Nat)
  exp : Option Int
deriving DecidableEq

/-- A JSON value as read from the response body. -/
inductive JSON where
  | null
  | bool (b : Bool)
  | number (n : JNumber)
  | string (s : String)
  | array (items : List JSON)
  | object (members : List (String × JSON))

/-! ## float64 and int64 -/

/-- The two float64 operations used by the program: `strconv.ParseFloat(lit, 64)` on a JSON
number literal (`none` when the literal is out of range) and the conversion `float64(n)` of
an int64. The constants `0` and `1` passed to `relay.Set` are `ofInt64 0` and `ofInt64 1`. -/
structure Float64Ops (F : Type) where
  parseFloat : JNumber → Option F
  ofInt64 : Int → F

/-- Go `strconv.ParseInt(lit, 10, 64)` on a JSON number literal: the literal must have neither a
fraction nor an exponent, and its value must fit in an int64. -/
def parseInt64 (n : JNumber) : Option Int :=
  if n.frac.isSome || n.exp.isSome then none
  else
    let v : Int := if n.neg then -(n.int : Int) else (n.int : Int)
    if -(2 : Int) ^ 63 ≤ v ∧ v < (2 : Int) ^ 63 then some v else none

/-! ## `DeviceMetrics` and its JSON decoding -/

/-- Go struct `DeviceMetrics` (main.go, lines 16-23). -/
structure DeviceMetrics (F : Type) where
  Power : F
  Ws : F
  Relay : Bool
  Temperature : F
  EnergySinceBoot : F
  TimeSinceBoot : Int

/-- The zero value of `DeviceMetrics`, as declared by `var metrics DeviceMetrics`. -/
def DeviceMetrics.zero {F : Type} (fm : Float64Ops F) : DeviceMetrics F :=
  { Power := fm.ofInt64 0, Ws := fm.ofInt64 0, Relay := false, Temperature := fm.ofInt64 0,
    EnergySinceBoot := fm.ofInt64 0, TimeSinceBoot := 0 }

/-- The six fields of `DeviceMetrics`, in declaration order. -/
inductive Field where
  | Power
  | Ws
  | Relay
  | Temperature
  | EnergySinceBoot
  | TimeSinceBoot
deriving DecidableEq

/-- The JSON name of a field, from its struct tag. -/
def Field.jsonName : Field → String
  | .Power => "power"
  | .Ws => "Ws"
  | .Relay => "relay"
  | .Temperature => "temperature"
  | .EnergySinceBoot => "energy_since_boot"
  | .TimeSinceBoot => "time_since_boot"

/-- All fields in declaration order. -/
def Field.all : List Field :=
  [.Power, .Ws, .Relay, .Temperature, .EnergySinceBoot, .TimeSinceBoot]

/-- Case folding of one character as far as it matters for matching the (ASCII) field names:
ASCII lower case letters fold to upper case, U+017F (long s) folds with `S` and U+212A
(Kelvin sign) folds with `K`; no other character folds to an ASCII letter. -/
def foldRune (c : Char) : Char :=
  if 97 ≤ c.toNat ∧ c.toNat ≤ 122 then Char.ofNat (c.toNat - 32)
  else if c.toNat = 0x17F then Char.ofNat 83
  else if c.toNat = 0x212A then Char.ofNat 75
  else c

/-- Go `encoding/json` `foldName`, the key of the case-insensitive field lookup, as far as it
decides a match with an ASCII field name. -/
def foldName (s : String) : String :=
  String.mk (s.data.map foldRune)

/-- The struct field an object key is decoded into: an exact match of the JSON name is
preferred, otherwise the first field whose name matches case-insensitively; `none` when the key
is unknown (its value is then skipped). -/
def findField (key : String) : Option Field :=
  match Field.all.find? (fun f => f.jsonName == key) with
  | some f => some f
  | none => Field.all.find? (fun f => foldName f.jsonName == foldName key)

/-- Errors the decoder can report: no complete, syntactically valid JSON value could be read,
or a value does not fit the Go type it is decoded into (the field is `none` for the top-level
value). -/
inductive DecodeError where
  | malformed
  | unmarshalTypeError (field : Option Field)
deriving DecidableEq

/-- State of one `Decode` call: the struct being filled and the first type error met
(`savedError`); decoding continues after a type error. -/
structure DecodeState (F : Type) where
  metrics : DeviceMetrics F
  savedError : Option DecodeError

/-- Go `decodeState.saveError`: only the first error is kept. -/
def DecodeState.saveError {F : Type} (d : DecodeState F) (e : DecodeError) : DecodeState F :=
  match d.savedError with
  | none => { d with savedError := some e }
  | some _ => d

/-- Decoding of one JSON value into one struct field. A JSON `null` leaves a field of
primitive type untouched; a value of the wrong kind, or a number the field type cannot hold,
is a type error that leaves the field untouched. -/
def DecodeState.store {F : Type} (fm : Float64Ops F) (d : DecodeState F) (f : Field)
    (v : JSON) : DecodeState F :=
  match v with
  | .null => d
  | .number n =>
    match f with
    | .Power =>
      match fm.parseFloat n with
      | some x => { d with metrics := { d.metrics with Power := x } }
      | none => d.saveError (.unmarshalTypeError (some f))
    | .Ws =>
      match fm.parseFloat n with
      | some x => { d with metrics := { d.metrics with Ws := x } }
      | none => d.saveError (.unmarshalTypeError (some f))
    | .Temperature =>
      match fm.parseFloat n with
      | some x => { d with metrics := { d.metrics with Temperature := x } }
      | none => d.saveError (.unmarshalTypeError (some f))
    | .EnergySinceBoot =>
      match fm.parseFloat n with
      | some x => { d with metrics := { d.metrics with EnergySinceBoot := x } }
      | none => d.saveError (.unmarshalTypeError (some f))
    | .TimeSinceBoot =>
      match parseInt64 n with
      | some i => { d with metrics := { d.metrics with TimeSinceBoot := i } }
      | none => d.saveError (.unmarshalTypeError (some f))
    | .Relay => d.saveError (.unmarshalTypeError (some f))
  | .bool b =>
    match f with
    | .Relay => { d with metrics := { d.metrics with Relay := b } }
    | _ => d.saveError (.unmarshalTypeError (some f))
  | _ => d.saveError (.unmarshalTypeError (some f))

/-- Decoding of one object member: the value is stored into the field the key selects, and
skipped when the key selects none. -/
def DecodeState.member {F : Type} (fm : Float64Ops F) (d : DecodeState F)
    (kv : String × JSON) : DecodeState F :=
  match findField kv.1 with
  | some f => d.store fm f kv.2
  | none => d

/-- Decoding of a JSON object: its members are processed in order. -/
def DecodeState.object {F : Type} (fm : Float64Ops F) (d : DecodeState F)
    (members : List (String × JSON)) : DecodeState F :=
  members.foldl (DecodeState.member fm) d

/-- Go `json.NewDecoder(resp.Body).Decode(&metrics)` with `metrics` freshly declared: the struct
after the call, and the error returned. A top-level `null` is accepted and changes nothing; a
top-level value that is neither `null` nor an object is a type error. -/
def decode {F : Type} (fm : Float64Ops F) (body : Option JSON) :
    DeviceMetrics F × Option DecodeError :=
  let d0 : DecodeState F := { metrics := DeviceMetrics.zero fm, savedError := none }
  match body with
  | none => (d0.metrics, some .malformed)
  | some .null => (d0.metrics, none)
  | some (.object members) =>
    let d := d0.object fm members
    (d.metrics, d.savedError)
  | some _ => (d0.metrics, some (.unmarshalTypeError none))

/-! ## Process state -/

/-- The six package-level gauges (main.go, lines 25-50), by their Go variable names. -/
structure Gauges (F : Type) where
  power : F
  Ws : F
  relay : F
  temperature : F
  energySinceBoot : F
  timeSinceBoot : F
deriving DecidableEq

/-- A new gauge holds 0. -/
def Gauges.init {F : Type} (fm : Float64Ops F) : Gauges F :=
  { power := fm.ofInt64 0, Ws := fm.ofInt64 0, relay := fm.ofInt64 0,
    temperature := fm.ofInt64 0, energySinceBoot := fm.ofInt64 0,
    timeSinceBoot := fm.ofInt64 0 }

/-- The gauge fed by a field of the report. -/
def Gauges.get {F : Type} (g : Gauges F) : Field → F
  | .Power => g.power
  | .Ws => g.Ws
  | .Relay => g.relay
  | .Temperature => g.temperature
  | .EnergySinceBoot => g.energySinceBoot
  | .TimeSinceBoot => g.timeSinceBoot

/-- The lines `fetchMetrics` can write to the log. -/
inductive LogEntry where
  | errorLoadingEnv
  | errorFetching
  | errorDecoding (e : DecodeError)
deriving DecidableEq

/-- A set of environment variables: the process environment, or the parsed `.env` file. -/
abbrev Env := String → Option String

/-- Go `os.Getenv`: the empty string when the variable is not set. -/
def getenv (env : Env) (key : String) : String :=
  (env key).getD ""

/-- State of the exporter process as far as the poll loop touches it. -/
structure Process (F : Type) where
  env : Env
  gauges : Gauges F
  log : List LogEntry
  requests : List String

/-- The process right after start, before the first cycle. -/
def Process.start {F : Type} (fm : Float64Ops F) (env : Env) : Process F :=
  { env := env, gauges := Gauges.init fm, log := [], requests := [] }

/-- What `http.Get` returns: an error, or a response with a status code and a body. The body
is given by the first JSON value the decoder reads from it, `none` when the decoder cannot read
a complete, syntactically valid value. -/
inductive HttpResult where
  | error
  | response (status : Nat) (body : Option JSON)

/-- The surroundings of one poll cycle: the parsed `.env` file of the working directory
(`none` when it is missing, unreadable or does not parse) and the answer `http.Get` gives for
each URL. -/
structure World where
  dotenv : Option Env
  httpGet : String → HttpResult

/-- Result of running code that may call `log.Fatalf`: it returns with the process still
running, or the process has exited with a status code. -/
inductive Outcome (F : Type) where
  | running (p : Process F)
  | exited (code : Nat) (p : Process F)

/-- The process state carried by an outcome. -/
def Outcome.process {F : Type} : Outcome F → Process F
  | .running p => p
  | .exited _ p => p

/-- Exit status of an outcome, `none` while the process runs. -/
def Outcome.exitCode {F : Type} : Outcome F → Option Nat
  | .running _ => none
  | .exited c _ => some c

/-! ## `fetchMetrics` and the poll loop -/

/-- Go `godotenv.Load()`: fails when `.env` cannot be read; otherwise every variable of the file
that is not already present in the environment is set (present variables are kept). -/
def godotenvLoad (file : Option Env) (env : Env) : Option Env :=
  match file with
  | none => none
  | some m => some (fun k => match env k with
      | some v => some v
      | none => m k)

/-- The URL built by `fmt.Sprintf("http://%s/report", ip)`. -/
def reportURL (ip : String) : String :=
  "http://" ++ ip ++ "/report"

/-- The six `Set` calls at the end of `fetchMetrics` (main.go, lines 79-88). -/
def publish {F : Type} (fm : Float64Ops F) (metrics : DeviceMetrics F) : Gauges F :=
  { power := metrics.Power
    Ws := metrics.Ws
    relay := if metrics.Relay then fm.ofInt64 1 else fm.ofInt64 0
    temperature := metrics.Temperature
    energySinceBoot := metrics.EnergySinceBoot
    timeSinceBoot := fm.ofInt64 metrics.TimeSinceBoot }

/-- Go `fetchMetrics` (main.go, lines 57-89). -/
def fetchMetrics {F : Type} (fm : Float64Ops F) (w : World) (p : Process F) : Outcome F :=
  match godotenvLoad w.dotenv p.env with
  | none => .exited 1 { p with log := p.log ++ [.errorLoadingEnv] }
  | some env =>
    let ip := getenv env "IP_WIFI_SWITCH"
    let url := reportURL ip
    let p1 : Process F := { p with env := env, requests := p.requests ++ [url] }
    match w.httpGet url with
    | .error => .running { p1 with log := p1.log ++ [.errorFetching] }
    | .response _ body =>
      match decode fm body with
      | (_, some e) => .running { p1 with log := p1.log ++ [.errorDecoding e] }
      | (metrics, none) => .running { p1 with gauges := publish fm metrics }

/-- The poll loop of `main` (main.go, lines 93-99) run for the cycles whose surroundings are
listed; a cycle that exits the process ends the loop. -/
def pollLoop {F : Type} (fm : Float64Ops F) : List World → Process F → Outcome F
  | [], p => .running p
  | w :: ws, p =>
    match fetchMetrics fm w p with
    | .running p1 => pollLoop fm ws p1
    | .exited c p1 => .exited c p1

/-! ## Reading a report off a JSON object -/

/-- The values of the members of a JSON object that are decoded into field `f`, in order. -/
def valuesFor (members : List (String × JSON)) (f : Field) : List JSON :=
  (members.filter (fun kv => findField kv.1 == some f)).map Prod.snd

/-- A valid device report payload: a JSON object in which each of the six fields is given by
exactly one member, whose value has the expected JSON type (a number, or a boolean for
`relay`). -/
def ValidReport (members : List (String × JSON)) (power ws : JNumber) (relay : Bool)
    (temperature energy time : JNumber) : Prop :=
  valuesFor members .Power = [.number power] ∧
  valuesFor members .Ws = [.number ws] ∧
  valuesFor members .Relay = [.bool relay] ∧
  valuesFor members .Temperature = [.number temperature] ∧
  valuesFor members .EnergySinceBoot = [.number energy] ∧
  valuesFor members .TimeSinceBoot = [.number time]

/-- A successful cycle: the configuration loads, the GET returns a response (of any status)
and the decoder accepts its body `report`. -/
def Succeeds {F : Type} (fm : Float64Ops F) (w : World) (p : Process F)
    (report : Option JSON) : Prop :=
  ∃ env status, godotenvLoad w.dotenv p.env = some env ∧
    w.httpGet (reportURL (getenv env "IP_WIFI_SWITCH")) = .response status report ∧
    (decode fm report).2 = none

/-! ## Concrete inputs -/

/-- An exact decimal number `num / 10 ^ scale`. -/
structure Decimal where
  num : Int
  scale : Nat
deriving DecidableEq

/-- The decimal `n / 10 ^ s` with trailing zeros after the decimal point removed. -/
def Decimal.normalize : Int → Nat → Decimal
  | n, 0 => ⟨n, 0⟩
  | n, s + 1 => if n % 10 = 0 then Decimal.normalize (n / 10) s else ⟨n, s + 1⟩

/-- The number written by a list of decimal digits. -/
def digitsValue (ds : List Nat) : Nat :=
  ds.foldl (fun acc d => 10 * acc + d) 0

/-- The exact value of a JSON number literal. -/
def Decimal.ofLiteral (n : JNumber) : Decimal :=
  let ds := n.frac.getD []
  let m : Int := ((n.int * 10 ^ ds.length + digitsValue ds : Nat) : Int)
  let m := if n.neg then -m else m
  let s : Int := (ds.length : Int) - n.exp.getD 0
  if 0 ≤ s then Decimal.normalize m s.toNat else ⟨m * 10 ^ (-s).toNat, 0⟩

/-- Float operations that keep the exact decimal value of every number (no rounding, no range
limit), used to run the program on concrete reports. -/
def exactOps : Float64Ops Decimal :=
  { parseFloat := fun n => some (Decimal.ofLiteral n)
    ofInt64 := fun i => ⟨i, 0⟩ }

/-- A JSON number literal without exponent. -/
def lit (int : Nat) (frac : Option (List Nat)) : JNumber :=
  { neg := false, int := int, frac := frac, exp := none }

/-- The report `{"power":12.5,"Ws":4400,"relay":true,"temperature":21.3,
"energy_since_boot":10000,"time_since_boot":3600}`. -/
def scenarioReport : List (String × JSON) :=
  [("power", .number (lit 12 (some [5]))), ("Ws", .number (lit 4400 none)),
   ("relay", .bool true), ("temperature", .number (lit 21 (some [3]))),
   ("energy_since_boot", .number (lit 10000 none)),
   ("time_since_boot", .number (lit 3600 none))]

/-- An environment holding only `IP_WIFI_SWITCH`. -/
def hostEnv (host : String) : Env :=
  fun k => if k = "IP_WIFI_SWITCH" then some host else none

/-- An environment, or `.env` file, without variables. -/
def emptyEnv : Env :=
  fun _ => none

/-- A cycle in which `.env` sets the host and the device answers every GET with the given
status and body. -/
def answering (host : String) (status : Nat) (body : Option JSON) : World :=
  { dotenv := some (hostEnv host), httpGet := fun _ => .response status body }

/-- A cycle in which `.env` sets the host and every GET fails. -/
def unreachable (host : String) : World :=
  { dotenv := some (hostEnv host), httpGet := fun _ => .error }


/-- A cycle in which `.env` loads but sets no variable, and every GET fails. -/
def withoutHost : World :=
  { dotenv := some emptyEnv, httpGet := fun _ => .error }

/-- A cycle in which `.env` cannot be loaded, while the device would answer every GET with the
scenario report. -/
def withoutDotenv : World :=
  { dotenv := none, httpGet := fun _ => .response 200 (some (.object scenarioReport)) }

/-! ## Properties of the decoder -/

/-- The content of one field of `DeviceMetrics`, tagged with its Go type. -/
inductive Cell (F : Type) where
  | float (x : F)
  | bool (b : Bool)
  | int (i : Int)

/-- The content of field `f` of a `DeviceMetrics` value. -/
def DeviceMetrics.cell {F : Type} (m : DeviceMetrics F) : Field → Cell F
  | .Power => .float m.Power
  | .Ws => .float m.Ws
  | .Relay => .bool m.Relay
  | .Temperature => .float m.Temperature
  | .EnergySinceBoot => .float m.EnergySinceBoot
  | .TimeSinceBoot => .int m.TimeSinceBoot

/-- What a JSON value puts into field `f` when the field accepts it. -/
def storedCell {F : Type} (fm : Float64Ops F) : Field → JSON → Option (Cell F)
  | .Power, .number n => (fm.parseFloat n).map .float
  | .Ws, .number n => (fm.parseFloat n).map .float
  | .Temperature, .number n => (fm.parseFloat n).map .float
  | .EnergySinceBoot, .number n => (fm.parseFloat n).map .float
  | .TimeSinceBoot, .number n => (parseInt64 n).map .int
  | .Relay, .bool b => some (.bool b)
  | _, _ => none

theorem saveError_metrics {F : Type} (d : DecodeState F) (e : DecodeError) :
    (d.saveError e).metrics = d.metrics := by
  unfold DecodeState.saveError
  split <;> rfl

theorem saveError_savedError_ne_none {F : Type} (d : DecodeState F) (e : DecodeError) :
    (d.saveError e).savedError ≠ none := by
  unfold DecodeState.saveError
  split
  · simp
  · simp_all

theorem store_savedError_none {F : Type} (fm : Float64Ops F) (d : DecodeState F) (f : Field)
    (v : JSON) (h : (d.store fm f v).savedError = none) : d.savedError = none := by
  cases hd : d.savedError with
  | none => rfl
  | some e =>
    exfalso
    have hs : ∀ e1, d.saveError e1 = d := by
      intro e1
      simp [DecodeState.saveError, hd]
    cases v <;> cases f <;> simp only [DecodeState.store, hs] at h <;>
      (try split at h) <;> simp_all

theorem member_savedError_none {F : Type} (fm : Float64Ops F) (d : DecodeState F)
    (kv : String × JSON) (h : (d.member fm kv).savedError = none) : d.savedError = none := by
  unfold DecodeState.member at h
  split at h
  · exact store_savedError_none fm d _ _ h
  · exact h

theorem object_savedError_none {F : Type} (fm : Float64Ops F) (members : List (String × JSON)) :
    ∀ d : DecodeState F, (d.object fm members).savedError = none → d.savedError = none := by
  induction members with
  | nil => intro d h; exact h
  | cons kv rest ih =>
    intro d h
    exact member_savedError_none fm d kv (ih (d.member fm kv) h)

theorem store_cell_of_ne {F : Type} (fm : Float64Ops F) (d : DecodeState F) (f g : Field)
    (v : JSON) (hne : g ≠ f) : (d.store fm g v).metrics.cell f = d.metrics.cell f := by
  cases v <;> cases g <;> cases f <;>
    simp only [DecodeState.store, saveError_metrics, DeviceMetrics.cell] <;>
    first
      | rfl
      | exact absurd rfl hne
      | (split <;> simp only [saveError_metrics])

theorem member_cell_of_ne {F : Type} (fm : Float64Ops F) (d : DecodeState F) (f : Field)
    (kv : String × JSON) (hne : findField kv.1 ≠ some f) :
    (d.member fm kv).metrics.cell f = d.metrics.cell f := by
  unfold DecodeState.member
  split
  · rename_i g hg
    exact store_cell_of_ne fm d f g kv.2 (fun h => hne (by rw [hg, h]))
  · rfl

theorem object_cell_of_unmatched {F : Type} (fm : Float64Ops F) (f : Field)
    (members : List (String × JSON)) :
    ∀ d : DecodeState F, (∀ kv ∈ members, findField kv.1 ≠ some f) →
      (d.object fm members).metrics.cell f = d.metrics.cell f := by
  induction members with
  | nil => intro d _; rfl
  | cons kv rest ih =>
    intro d h
    have h1 := ih (d.member fm kv) (fun x hx => h x (List.mem_cons_of_mem _ hx))
    have h2 := member_cell_of_ne fm d f kv (h kv (List.mem_cons_self _ _))
    exact h1.trans h2

theorem store_cell_of_accepted {F : Type} (fm : Float64Ops F) (d : DecodeState F) (f : Field)
    (v : JSON) (hnull : v ≠ .null) (h : (d.store fm f v).savedError = none) :
    storedCell fm f v = some ((d.store fm f v).metrics.cell f) := by
  have hne := saveError_savedError_ne_none d
  cases v <;> cases f <;>
    simp only [DecodeState.store, storedCell, DeviceMetrics.cell] at h ⊢ <;>
    first
      | exact absurd rfl hnull
      | exact absurd h (hne _)
      | rfl
      | (split <;> simp_all)

theorem valuesFor_singleton (f : Field) (v : JSON) :
    ∀ members : List (String × JSON), valuesFor members f = [v] →
      ∃ pre k post, members = pre ++ (k, v) :: post ∧ findField k = some f ∧
        (∀ kv ∈ pre, findField kv.1 ≠ some f) ∧ (∀ kv ∈ post, findField kv.1 ≠ some f) := by
  intro members
  induction members with
  | nil => intro h; simp [valuesFor] at h
  | cons kv rest ih =>
    intro h
    by_cases hk : findField kv.1 = some f
    · have hrest : valuesFor rest f = [] ∧ kv.2 = v := by
        simp only [valuesFor, List.filter_cons, hk, beq_self_eq_true, if_true, List.map_cons,
          List.cons.injEq] at h
        exact ⟨h.2, h.1⟩
      refine ⟨[], kv.1, rest, ?_, hk, ?_, ?_⟩
      · rw [← hrest.2]; rfl
      · intro x hx; simp at hx
      · intro x hx hx2
        have hmem : x.2 ∈ valuesFor rest f := by
          simp only [valuesFor, List.mem_map, List.mem_filter]
          exact ⟨x, ⟨hx, by simp [hx2]⟩, rfl⟩
        rw [hrest.1] at hmem
        simp at hmem
    · have hrest : valuesFor rest f = [v] := by
        have hb : (findField kv.1 == some f) = false := by simpa using hk
        simpa only [valuesFor, List.filter_cons, hb, Bool.false_eq_true, if_false] using h
      obtain ⟨pre, k, post, hms, hkf, hpre, hpost⟩ := ih hrest
      refine ⟨kv :: pre, k, post, ?_, hkf, ?_, hpost⟩
      · rw [hms]; rfl
      · intro x hx
        rcases List.mem_cons.mp hx with hx | hx
        · rw [hx]; exact hk
        · exact hpre x hx

theorem valuesFor_nil_iff (f : Field) (members : List (String × JSON)) :
    valuesFor members f = [] ↔ ∀ kv ∈ members, findField kv.1 ≠ some f := by
  simp [valuesFor, List.filter_eq_nil_iff]

theorem object_append {F : Type} (fm : Float64Ops F) (d : DecodeState F)
    (pre post : List (String × JSON)) :
    d.object fm (pre ++ post) = (d.object fm pre).object fm post := by
  simp [DecodeState.object, List.foldl_append]

theorem object_cons {F : Type} (fm : Float64Ops F) (d : DecodeState F)
    (kv : String × JSON) (post : List (String × JSON)) :
    d.object fm (kv :: post) = (d.member fm kv).object fm post := rfl

/-- When exactly one member of an accepted object is decoded into `f`, and its value is not
`null`, the field holds what that value stores. -/
theorem object_cell_of_unique {F : Type} (fm : Float64Ops F) (d : DecodeState F) (f : Field)
    (v : JSON) (members : List (String × JSON)) (hv : valuesFor members f = [v])
    (hnull : v ≠ .null) (h : (d.object fm members).savedError = none) :
    storedCell fm f v = some ((d.object fm members).metrics.cell f) := by
  obtain ⟨pre, k, post, hms, hkf, _, hpost⟩ := valuesFor_singleton f v members hv
  subst hms
  rw [object_append, object_cons] at h ⊢
  have hstep : DecodeState.member fm (d.object fm pre) (k, v)
      = (d.object fm pre).store fm f v := by
    simp [DecodeState.member, hkf]
  rw [hstep] at h ⊢
  rw [object_cell_of_unmatched fm f post _ hpost]
  exact store_cell_of_accepted fm _ f v hnull (object_savedError_none fm post _ h)

/-- A member whose value its field rejects makes the decoder reject the object. -/
theorem object_rejects {F : Type} (fm : Float64Ops F) (d : DecodeState F) (f : Field)
    (k : String) (v : JSON) (pre post : List (String × JSON)) (hk : findField k = some f)
    (hnull : v ≠ .null) (hrej : storedCell fm f v = none) :
    (d.object fm (pre ++ (k, v) :: post)).savedError ≠ none := by
  intro h
  rw [object_append, object_cons] at h
  have h1 := object_savedError_none fm post _ h
  have hstep : DecodeState.member fm (d.object fm pre) (k, v)
      = (d.object fm pre).store fm f v := by
    simp [DecodeState.member, hk]
  rw [hstep] at h1
  have h2 := store_cell_of_accepted fm _ f v hnull h1
  rw [hrej] at h2
  exact Option.noConfusion h2

/-! ## The four ways through `fetchMetrics` -/

theorem fetchMetrics_load_failed {F : Type} (fm : Float64Ops F) (w : World) (p : Process F)
    (hload : godotenvLoad w.dotenv p.env = none) :
    fetchMetrics fm w p = .exited 1 { p with log := p.log ++ [.errorLoadingEnv] } := by
  simp [fetchMetrics, hload]

theorem fetchMetrics_get_failed {F : Type} (fm : Float64Ops F) (w : World) (p : Process F)
    (env : Env) (hload : godotenvLoad w.dotenv p.env = some env)
    (hget : w.httpGet (reportURL (getenv env "IP_WIFI_SWITCH")) = .error) :
    fetchMetrics fm w p = .running
      { env := env, gauges := p.gauges, log := p.log ++ [.errorFetching],
        requests := p.requests ++ [reportURL (getenv env "IP_WIFI_SWITCH")] } := by
  simp [fetchMetrics, hload, hget]

theorem fetchMetrics_rejected {F : Type} (fm : Float64Ops F) (w : World) (p : Process F)
    (env : Env) (status : Nat) (body : Option JSON) (e : DecodeError)
    (hload : godotenvLoad w.dotenv p.env = some env)
    (hget : w.httpGet (reportURL (getenv env "IP_WIFI_SWITCH")) = .response status body)
    (hdec : (decode fm body).2 = some e) :
    fetchMetrics fm w p = .running
      { env := env, gauges := p.gauges, log := p.log ++ [.errorDecoding e],
        requests := p.requests ++ [reportURL (getenv env "IP_WIFI_SWITCH")] } := by
  simp only [fetchMetrics, hload, hget]
  split
  · rename_i m e1 heq
    rw [heq] at hdec
    cases hdec
    rfl
  · rename_i m heq
    rw [heq] at hdec
    cases hdec

theorem fetchMetrics_accepted {F : Type} (fm : Float64Ops F) (w : World) (p : Process F)
    (env : Env) (status : Nat) (body : Option JSON)
    (hload : godotenvLoad w.dotenv p.env = some env)
    (hget : w.httpGet (reportURL (getenv env "IP_WIFI_SWITCH")) = .response status body)
    (hdec : (decode fm body).2 = none) :
    fetchMetrics fm w p = .running
      { env := env, gauges := publish fm (decode fm body).1, log := p.log,
        requests := p.requests ++ [reportURL (getenv env "IP_WIFI_SWITCH")] } := by
  simp only [fetchMetrics, hload, hget]
  split
  · rename_i m e1 heq
    rw [heq] at hdec
    cases hdec
  · rename_i m heq
    rw [heq]

theorem godotenvLoad_eq_none (file : Option Env) (env : Env) :
    godotenvLoad file env = none ↔ file = none := by
  cases file <;> simp [godotenvLoad]

/-- A cycle leaves the gauges alone or overwrites all six from one decoded report. -/
theorem fetchMetrics_gauges {F : Type} (fm : Float64Ops F) (w : World) (p : Process F) :
    (fetchMetrics fm w p).process.gauges = p.gauges ∨
      ∃ m, (fetchMetrics fm w p).process.gauges = publish fm m := by
  cases hload : godotenvLoad w.dotenv p.env with
  | none => left; rw [fetchMetrics_load_failed fm w p hload]; rfl
  | some env =>
    cases hget : w.httpGet (reportURL (getenv env "IP_WIFI_SWITCH")) with
    | error => left; rw [fetchMetrics_get_failed fm w p env hload hget]; rfl
    | response status body =>
      cases hdec : (decode fm body).2 with
      | some e => left; rw [fetchMetrics_rejected fm w p env status body e hload hget hdec]; rfl
      | none =>
        right
        rw [fetchMetrics_accepted fm w p env status body hload hget hdec]
        exact ⟨_, rfl⟩

theorem decode_object {F : Type} (fm : Float64Ops F) (members : List (String × JSON)) :
    decode fm (some (.object members))
      = ((DecodeState.object fm ⟨DeviceMetrics.zero fm, none⟩ members).metrics,
         (DecodeState.object fm ⟨DeviceMetrics.zero fm, none⟩ members).savedError) := rfl

theorem succeeds_gauges {F : Type} (fm : Float64Ops F) (w : World) (p : Process F)
    (report : Option JSON) (h : Succeeds fm w p report) :
    (fetchMetrics fm w p).process.gauges = publish fm (decode fm report).1 := by
  obtain ⟨env, status, hload, hget, hdec⟩ := h
  rw [fetchMetrics_accepted fm w p env status report hload hget hdec]
  rfl

theorem publish_relay {F : Type} (fm : Float64Ops F) (m : DeviceMetrics F) :
    (publish fm m).relay = fm.ofInt64 0 ∨ (publish fm m).relay = fm.ofInt64 1 := by
  cases h : m.Relay <;> simp [publish, h]

/-- The relay gauge stays 0 or 1 along the poll loop. -/
theorem pollLoop_relay {F : Type} (fm : Float64Ops F) (ws : List World) :
    ∀ p : Process F, (p.gauges.relay = fm.ofInt64 0 ∨ p.gauges.relay = fm.ofInt64 1) →
      ((pollLoop fm ws p).process.gauges.relay = fm.ofInt64 0 ∨
        (pollLoop fm ws p).process.gauges.relay = fm.ofInt64 1) := by
  induction ws with
  | nil => intro p h; exact h
  | cons w rest ih =>
    intro p h
    have hstep : (fetchMetrics fm w p).process.gauges.relay = fm.ofInt64 0 ∨
        (fetchMetrics fm w p).process.gauges.relay = fm.ofInt64 1 := by
      rcases fetchMetrics_gauges fm w p with hg | ⟨m, hg⟩
      · rw [hg]; exact h
      · rw [hg]; exact publish_relay fm m
    unfold pollLoop
    cases hf : fetchMetrics fm w p with
    | running p1 =>
      rw [hf] at hstep
      exact ih p1 hstep
    | exited c p1 =>
      rw [hf] at hstep
      exact hstep


theorem godotenvLoad_keeps (file : Option Env) (env env1 : Env) (k v : String)
    (hload : godotenvLoad file env = some env1) (hk : env k = some v) : env1 k = some v := by
  cases file with
  | none => simp [godotenvLoad] at hload
  | some m =>
    simp only [godotenvLoad, Option.some.injEq] at hload
    rw [← hload]
    simp [hk]

/-- From a state whose environment sets the host, a cycle either exits without a GET or keeps
the host and requests its report URL. -/
theorem fetchMetrics_host_set {F : Type} (fm : Float64Ops F) (w : World) (p : Process F)
    (h : String) (hset : p.env "IP_WIFI_SWITCH" = some h) :
    (∃ p1, fetchMetrics fm w p = .exited 1 p1 ∧ w.dotenv = none ∧ p1.requests = p.requests) ∨
    (∃ p1, fetchMetrics fm w p = .running p1 ∧ w.dotenv ≠ none ∧
      p1.env "IP_WIFI_SWITCH" = some h ∧ p1.requests = p.requests ++ [reportURL h]) := by
  cases hload : godotenvLoad w.dotenv p.env with
  | none =>
    left
    exact ⟨_, fetchMetrics_load_failed fm w p hload,
      (godotenvLoad_eq_none _ _).mp hload, rfl⟩
  | some env =>
    right
    have hfile : w.dotenv ≠ none := by
      intro hn
      rw [(godotenvLoad_eq_none _ _).mpr hn] at hload
      cases hload
    have henv := godotenvLoad_keeps w.dotenv p.env env _ h hload hset
    have hip : getenv env "IP_WIFI_SWITCH" = h := by simp [getenv, henv]
    cases hget : w.httpGet (reportURL (getenv env "IP_WIFI_SWITCH")) with
    | error =>
      rw [fetchMetrics_get_failed fm w p env hload hget, hip]
      exact ⟨_, rfl, hfile, henv, rfl⟩
    | response status body =>
      cases hdec : (decode fm body).2 with
      | some e =>
        rw [fetchMetrics_rejected fm w p env status body e hload hget hdec, hip]
        exact ⟨_, rfl, hfile, henv, rfl⟩
      | none =>
        rw [fetchMetrics_accepted fm w p env status body hload hget hdec, hip]
        exact ⟨_, rfl, hfile, henv, rfl⟩

theorem pollLoop_requests_of_host_set {F : Type} (fm : Float64Ops F) (h : String)
    (ws : List World) :
    ∀ p : Process F, p.env "IP_WIFI_SWITCH" = some h →
      ∃ k, k ≤ ws.length ∧
        (pollLoop fm ws p).process.requests = p.requests ++ List.replicate k (reportURL h) := by
  induction ws with
  | nil => intro p _; exact ⟨0, le_refl _, by simp [pollLoop, Outcome.process]⟩
  | cons w rest ih =>
    intro p hset
    rcases fetchMetrics_host_set fm w p h hset with ⟨p1, hf, _, hreq⟩ | ⟨p1, hf, _, henv, hreq⟩
    · refine ⟨0, Nat.zero_le _, ?_⟩
      simp [pollLoop, hf, Outcome.process, hreq]
    · obtain ⟨k, hk, hrest⟩ := ih p1 henv
      refine ⟨k + 1, by simpa using hk, ?_⟩
      simp only [pollLoop, hf]
      rw [hrest, hreq, List.append_assoc]
      rfl


theorem fetchMetrics_requests {F : Type} (fm : Float64Ops F) (w : World) (p : Process F)
    (env : Env) (hload : godotenvLoad w.dotenv p.env = some env) :
    (fetchMetrics fm w p).exitCode = none ∧
    (fetchMetrics fm w p).process.requests
      = p.requests ++ [reportURL (getenv env "IP_WIFI_SWITCH")] := by
  cases hget : w.httpGet (reportURL (getenv env "IP_WIFI_SWITCH")) with
  | error =>
    rw [fetchMetrics_get_failed fm w p env hload hget]
    exact ⟨rfl, rfl⟩
  | response status body =>
    cases hdec : (decode fm body).2 with
    | some e =>
      rw [fetchMetrics_rejected fm w p env status body e hload hget hdec]
      exact ⟨rfl, rfl⟩
    | none =>
      rw [fetchMetrics_accepted fm w p env status body hload hget hdec]
      exact ⟨rfl, rfl⟩


/-! ## The claims -/

/-- C1: for every valid device report payload and every prior state, a cycle whose GET succeeds
and whose body decodes leaves each float gauge equal to the float64 read from the corresponding
member, `device_relay_status` equal to 1 when `relay` is true and to 0 when it is false, and
`device_time_since_boot` equal to the float64 of the integer read from `time_since_boot`. -/
theorem fetchMetrics_publishes_report {F : Type} (fm : Float64Ops F) (w : World)
    (p : Process F) (env : Env) (status : Nat) (members : List (String × JSON))
    (power ws : JNumber) (relay : Bool) (temperature energy time : JNumber)
    (hload : godotenvLoad w.dotenv p.env = some env)
    (hget : w.httpGet (reportURL (getenv env "IP_WIFI_SWITCH"))
      = .response status (some (.object members)))
    (hvalid : ValidReport members power ws relay temperature energy time)
    (hdec : (decode fm (some (.object members))).2 = none) :
    ∃ p1, fetchMetrics fm w p = .running p1 ∧
      fm.parseFloat power = some p1.gauges.power ∧
      fm.parseFloat ws = some p1.gauges.Ws ∧
      p1.gauges.relay = (if relay then fm.ofInt64 1 else fm.ofInt64 0) ∧
      fm.parseFloat temperature = some p1.gauges.temperature ∧
      fm.parseFloat energy = some p1.gauges.energySinceBoot ∧
      ∃ n, parseInt64 time = some n ∧ p1.gauges.timeSinceBoot = fm.ofInt64 n := by
  refine ⟨_, fetchMetrics_accepted fm w p env status _ hload hget hdec, ?_⟩
  obtain ⟨h1, h2, h3, h4, h5, h6⟩ := hvalid
  rw [decode_object] at hdec ⊢
  have c1 := object_cell_of_unique fm _ .Power _ members h1 (by simp) hdec
  have c2 := object_cell_of_unique fm _ .Ws _ members h2 (by simp) hdec
  have c3 := object_cell_of_unique fm _ .Relay _ members h3 (by simp) hdec
  have c4 := object_cell_of_unique fm _ .Temperature _ members h4 (by simp) hdec
  have c5 := object_cell_of_unique fm _ .EnergySinceBoot _ members h5 (by simp) hdec
  have c6 := object_cell_of_unique fm _ .TimeSinceBoot _ members h6 (by simp) hdec
  simp only [storedCell, DeviceMetrics.cell, Option.map_eq_some', Cell.float.injEq,
    Cell.int.injEq, Option.some.injEq, Cell.bool.injEq, exists_eq_right] at c1 c2 c3 c4 c5 c6
  refine ⟨c1, c2, ?_, c4, c5, _, c6, rfl⟩
  simp only [publish, ← c3]

/-- C1, on the report of the scenario: the report is valid and decodes, and the gauges read
12.5, 4400, 1, 21.3, 10000 and 3600. -/
theorem fetchMetrics_publishes_report_witness :
    ValidReport scenarioReport (lit 12 (some [5])) (lit 4400 none) true (lit 21 (some [3]))
      (lit 10000 none) (lit 3600 none) ∧
    (decode exactOps (some (.object scenarioReport))).2 = none ∧
    ∃ p1, fetchMetrics exactOps (answering "192.168.1.50" 200 (some (.object scenarioReport)))
        (Process.start exactOps emptyEnv) = .running p1 ∧
      some (Decimal.mk 125 1) = some p1.gauges.power ∧
      some (Decimal.mk 4400 0) = some p1.gauges.Ws ∧
      p1.gauges.relay = Decimal.mk 1 0 ∧
      some (Decimal.mk 213 1) = some p1.gauges.temperature ∧
      some (Decimal.mk 10000 0) = some p1.gauges.energySinceBoot ∧
      ∃ n, some 3600 = some n ∧ p1.gauges.timeSinceBoot = Decimal.mk n 0 :=
  ⟨⟨rfl, rfl, rfl, rfl, rfl, rfl⟩, rfl,
    fetchMetrics_publishes_report exactOps
      (answering "192.168.1.50" 200 (some (.object scenarioReport)))
      (Process.start exactOps emptyEnv) (hostEnv "192.168.1.50") 200 scenarioReport
      (lit 12 (some [5])) (lit 4400 none) true (lit 21 (some [3])) (lit 10000 none)
      (lit 3600 none) rfl rfl ⟨rfl, rfl, rfl, rfl, rfl, rfl⟩ rfl⟩

/-- C4: when the decoder rejects the response body, the cycle returns with one decoding failure
logged and all six gauges as they were. The decoder rejects a body that is not syntactically
valid JSON, an object giving `power` as a string, and an object giving `relay` as anything
but a boolean or `null`. -/
theorem fetchMetrics_rejected_body_keeps_gauges {F : Type} (fm : Float64Ops F) (w : World)
    (p : Process F) (env : Env) (status : Nat) (body : Option JSON) (e : DecodeError)
    (hload : godotenvLoad w.dotenv p.env = some env)
    (hget : w.httpGet (reportURL (getenv env "IP_WIFI_SWITCH")) = .response status body)
    (hrej : (decode fm body).2 = some e) :
    (∃ p1, fetchMetrics fm w p = .running p1 ∧ p1.gauges = p.gauges ∧
      p1.log = p.log ++ [.errorDecoding e]) ∧
    (decode fm none).2 ≠ none ∧
    (∀ pre post s,
      (decode fm (some (.object (pre ++ ("power", .string s) :: post)))).2 ≠ none) ∧
    (∀ pre post v, v ≠ .null → (∀ b, v ≠ .bool b) →
      (decode fm (some (.object (pre ++ ("relay", v) :: post)))).2 ≠ none) := by
  refine ⟨⟨_, fetchMetrics_rejected fm w p env status body e hload hget hrej, rfl, rfl⟩,
    ?_, ?_, ?_⟩
  · simp [decode]
  · intro pre post s
    rw [decode_object]
    exact object_rejects fm _ .Power "power" _ pre post (by decide) (by simp) rfl
  · intro pre post v hnull hbool
    rw [decode_object]
    refine object_rejects fm _ .Relay "relay" v pre post (by decide) hnull ?_
    cases v <;> first | rfl | exact absurd rfl hnull | exact absurd rfl (hbool _)

/-- C4, on a body that gives `power` as a string, after a cycle that published the scenario
report. -/
theorem fetchMetrics_rejected_body_keeps_gauges_witness :
    (decode exactOps (some (.object [("power", .string "12.5")]))).2
      = some (.unmarshalTypeError (some .Power)) ∧
    ∃ p1, fetchMetrics exactOps
        (answering "192.168.1.50" 200 (some (.object [("power", .string "12.5")])))
        (fetchMetrics exactOps (answering "192.168.1.50" 200 (some (.object scenarioReport)))
          (Process.start exactOps emptyEnv)).process = .running p1 ∧
      p1.gauges = ⟨⟨125, 1⟩, ⟨4400, 0⟩, ⟨1, 0⟩, ⟨213, 1⟩, ⟨10000, 0⟩, ⟨3600, 0⟩⟩ ∧
      p1.log = [.errorDecoding (.unmarshalTypeError (some .Power))] :=
  ⟨rfl, (fetchMetrics_rejected_body_keeps_gauges exactOps
    (answering "192.168.1.50" 200 (some (.object [("power", .string "12.5")])))
    (fetchMetrics exactOps (answering "192.168.1.50" 200 (some (.object scenarioReport)))
      (Process.start exactOps emptyEnv)).process
    _ 200 _ (.unmarshalTypeError (some .Power)) rfl rfl rfl).1⟩

/-- C5: when the GET fails, the cycle logs the failure, has handed exactly one URL to
`http.Get`, leaves all six gauges as they were and returns with the process running, and the
poll loop goes on with its next cycle. -/
theorem fetchMetrics_get_error_keeps_gauges {F : Type} (fm : Float64Ops F) (w : World)
    (p : Process F) (env : Env) (hload : godotenvLoad w.dotenv p.env = some env)
    (hget : w.httpGet (reportURL (getenv env "IP_WIFI_SWITCH")) = .error) :
    ∃ p1, fetchMetrics fm w p = .running p1 ∧ p1.gauges = p.gauges ∧
      p1.log = p.log ++ [.errorFetching] ∧
      p1.requests = p.requests ++ [reportURL (getenv env "IP_WIFI_SWITCH")] ∧
      ∀ ws, pollLoop fm (w :: ws) p = pollLoop fm ws p1 := by
  refine ⟨_, fetchMetrics_get_failed fm w p env hload hget, rfl, rfl, rfl, ?_⟩
  intro ws
  simp only [pollLoop, fetchMetrics_get_failed fm w p env hload hget]

/-- C5, on an unreachable device after a cycle that published the scenario report. -/
theorem fetchMetrics_get_error_keeps_gauges_witness :
    ∃ p1, fetchMetrics exactOps (unreachable "192.168.1.50")
        (fetchMetrics exactOps (answering "192.168.1.50" 200 (some (.object scenarioReport)))
          (Process.start exactOps emptyEnv)).process = .running p1 ∧
      p1.gauges = ⟨⟨125, 1⟩, ⟨4400, 0⟩, ⟨1, 0⟩, ⟨213, 1⟩, ⟨10000, 0⟩, ⟨3600, 0⟩⟩ ∧
      p1.log = [] ++ [.errorFetching] ∧
      p1.requests = ["http://192.168.1.50/report"] ++ ["http://192.168.1.50/report"] ∧
      ∀ ws, pollLoop exactOps (unreachable "192.168.1.50" :: ws)
        (fetchMetrics exactOps (answering "192.168.1.50" 200 (some (.object scenarioReport)))
          (Process.start exactOps emptyEnv)).process = pollLoop exactOps ws p1 :=
  fetchMetrics_get_error_keeps_gauges exactOps (unreachable "192.168.1.50")
    (fetchMetrics exactOps (answering "192.168.1.50" 200 (some (.object scenarioReport)))
      (Process.start exactOps emptyEnv)).process _ rfl rfl

/-- C6: latest write wins. After a successful cycle with report `r1` followed by a successful
cycle with report `r2` the gauges are those left by a single successful cycle with `r2` from any
state; they are a function of `r2` alone; and a second successful cycle with the same report
changes nothing. -/
theorem fetchMetrics_latest_write_wins {F : Type} (fm : Float64Ops F) (p q : Process F)
    (w1 w2 w3 : World) (r1 r2 : Option JSON) (h1 : Succeeds fm w1 p r1)
    (h2 : Succeeds fm w2 (fetchMetrics fm w1 p).process r2) (h3 : Succeeds fm w3 q r2) :
    (fetchMetrics fm w2 (fetchMetrics fm w1 p).process).process.gauges
      = (fetchMetrics fm w3 q).process.gauges ∧
    (fetchMetrics fm w2 (fetchMetrics fm w1 p).process).process.gauges
      = publish fm (decode fm r2).1 ∧
    (r1 = r2 → (fetchMetrics fm w2 (fetchMetrics fm w1 p).process).process.gauges
      = (fetchMetrics fm w1 p).process.gauges) := by
  have g1 := succeeds_gauges fm w1 p r1 h1
  have g2 := succeeds_gauges fm w2 _ r2 h2
  have g3 := succeeds_gauges fm w3 q r2 h3
  refine ⟨g2.trans g3.symm, g2, ?_⟩
  intro h
  rw [g2, g1, h]

/-- C6, on the scenario report followed by the report `{"power":0}`, compared with a single
cycle with `{"power":0}` from the start state. -/
theorem fetchMetrics_latest_write_wins_witness :
    (fetchMetrics exactOps
        (answering "192.168.1.50" 200 (some (.object [("power", .number (lit 0 none))])))
        (fetchMetrics exactOps (answering "192.168.1.50" 200 (some (.object scenarioReport)))
          (Process.start exactOps emptyEnv)).process).process.gauges
      = (fetchMetrics exactOps
          (answering "192.168.1.50" 200 (some (.object [("power", .number (lit 0 none))])))
          (Process.start exactOps emptyEnv)).process.gauges :=
  (fetchMetrics_latest_write_wins exactOps (Process.start exactOps emptyEnv)
    (Process.start exactOps emptyEnv)
    (answering "192.168.1.50" 200 (some (.object scenarioReport)))
    (answering "192.168.1.50" 200 (some (.object [("power", .number (lit 0 none))])))
    (answering "192.168.1.50" 200 (some (.object [("power", .number (lit 0 none))])))
    (some (.object scenarioReport)) (some (.object [("power", .number (lit 0 none))]))
    ⟨_, 200, rfl, rfl, rfl⟩ ⟨_, 200, rfl, rfl, rfl⟩ ⟨_, 200, rfl, rfl, rfl⟩).1

/-- C10: in every state reached from the start state (all gauges 0) by any finite run of the
poll loop, whatever the configuration files, GET results and response bodies of its cycles,
`device_relay_status` is 0 or 1. -/
theorem relay_status_zero_or_one {F : Type} (fm : Float64Ops F) (env : Env)
    (ws : List World) :
    (pollLoop fm ws (Process.start fm env)).process.gauges.relay = fm.ofInt64 0 ∨
      (pollLoop fm ws (Process.start fm env)).process.gauges.relay = fm.ofInt64 1 :=
  pollLoop_relay fm ws (Process.start fm env) (Or.inl rfl)

/-- C2, as the code has it: the status code of the response is not looked at. Whatever the
status, the cycle does what it does for a 200 response with the same body: when the decoder
rejects the body the gauges stay as they were and a decoding failure is logged, and when the
decoder accepts it all six gauges are overwritten from the decoded report and nothing is
logged. -/
theorem fetchMetrics_ignores_status {F : Type} (fm : Float64Ops F) (w : World)
    (p : Process F) (env : Env) (status : Nat) (body : Option JSON)
    (hload : godotenvLoad w.dotenv p.env = some env)
    (hget : w.httpGet (reportURL (getenv env "IP_WIFI_SWITCH")) = .response status body) :
    fetchMetrics fm w p
      = fetchMetrics fm { w with httpGet := fun _ => .response 200 body } p ∧
    (∀ e, (decode fm body).2 = some e →
      (fetchMetrics fm w p).process.gauges = p.gauges ∧
      (fetchMetrics fm w p).process.log = p.log ++ [.errorDecoding e]) ∧
    ((decode fm body).2 = none →
      (fetchMetrics fm w p).process.gauges = publish fm (decode fm body).1 ∧
      (fetchMetrics fm w p).process.log = p.log) := by
  refine ⟨?_, ?_, ?_⟩
  · simp only [fetchMetrics, hload, hget]
  · intro e hdec
    rw [fetchMetrics_rejected fm w p env status body e hload hget hdec]
    exact ⟨rfl, rfl⟩
  · intro hdec
    rw [fetchMetrics_accepted fm w p env status body hload hget hdec]
    exact ⟨rfl, rfl⟩

/-- C2 as amended, on a 500 response carrying the scenario report. -/
theorem fetchMetrics_ignores_status_witness :
    fetchMetrics exactOps (answering "192.168.1.50" 500 (some (.object scenarioReport)))
        (Process.start exactOps emptyEnv)
      = fetchMetrics exactOps
        { answering "192.168.1.50" 500 (some (.object scenarioReport)) with
          httpGet := fun _ => .response 200 (some (.object scenarioReport)) }
        (Process.start exactOps emptyEnv) :=
  (fetchMetrics_ignores_status exactOps
    (answering "192.168.1.50" 500 (some (.object scenarioReport)))
    (Process.start exactOps emptyEnv) _ 500 _ rfl rfl).1

/-- C2 fails: from the start state (all gauges 0), a response with status 500 whose body is
the scenario report changes the gauges to 12.5, 4400, 1, 21.3, 10000 and 3600. -/
theorem non2xx_response_changes_gauges :
    ¬ (200 ≤ 500 ∧ 500 < 300) ∧
    (fetchMetrics exactOps (answering "192.168.1.50" 500 (some (.object scenarioReport)))
        (Process.start exactOps emptyEnv)).process.gauges
      = ⟨⟨125, 1⟩, ⟨4400, 0⟩, ⟨1, 0⟩, ⟨213, 1⟩, ⟨10000, 0⟩, ⟨3600, 0⟩⟩ ∧
    (fetchMetrics exactOps (answering "192.168.1.50" 500 (some (.object scenarioReport)))
        (Process.start exactOps emptyEnv)).process.gauges
      ≠ (Process.start exactOps emptyEnv).gauges := by
  decide

/-- C3, as the code has it: a field missing from a JSON object is not a decoding failure and
keeps its zero value. When the decoder accepts the object (as it does the empty object), the
cycle logs nothing and overwrites the gauges, and the gauge of every field that no member
gives is set to 0. -/
theorem fetchMetrics_missing_fields_zero {F : Type} (fm : Float64Ops F) (w : World)
    (p : Process F) (env : Env) (status : Nat) (members : List (String × JSON))
    (hload : godotenvLoad w.dotenv p.env = some env)
    (hget : w.httpGet (reportURL (getenv env "IP_WIFI_SWITCH"))
      = .response status (some (.object members)))
    (hdec : (decode fm (some (.object members))).2 = none) :
    (decode fm (some (.object []))).2 = none ∧
    ∃ p1, fetchMetrics fm w p = .running p1 ∧ p1.log = p.log ∧
      p1.gauges = publish fm (decode fm (some (.object members))).1 ∧
      ∀ f, valuesFor members f = [] → p1.gauges.get f = fm.ofInt64 0 := by
  refine ⟨rfl, _, fetchMetrics_accepted fm w p env status _ hload hget hdec, rfl, rfl, ?_⟩
  intro f hf
  have hcell := object_cell_of_unmatched fm f members ⟨DeviceMetrics.zero fm, none⟩
    ((valuesFor_nil_iff f members).mp hf)
  rw [decode_object]
  cases f <;>
    simp only [DeviceMetrics.cell, Cell.float.injEq, Cell.bool.injEq, Cell.int.injEq]
      at hcell <;>
    simp only [Gauges.get, publish] <;>
    first
      | exact hcell
      | (rw [hcell]; rfl)

/-- C3 as amended, on the body `{"power":12.5}` after a cycle that published the scenario
report. -/
theorem fetchMetrics_missing_fields_zero_witness :
    ∃ p1, fetchMetrics exactOps
        (answering "192.168.1.50" 200
          (some (.object [("power", .number (lit 12 (some [5])))])))
        (fetchMetrics exactOps (answering "192.168.1.50" 200 (some (.object scenarioReport)))
          (Process.start exactOps emptyEnv)).process = .running p1 ∧
      p1.log = [] ∧
      p1.gauges = ⟨⟨125, 1⟩, ⟨0, 0⟩, ⟨0, 0⟩, ⟨0, 0⟩, ⟨0, 0⟩, ⟨0, 0⟩⟩ ∧
      ∀ f, valuesFor [("power", JSON.number (lit 12 (some [5])))] f = [] →
        p1.gauges.get f = Decimal.mk 0 0 :=
  (fetchMetrics_missing_fields_zero exactOps
    (answering "192.168.1.50" 200 (some (.object [("power", .number (lit 12 (some [5])))])))
    (fetchMetrics exactOps (answering "192.168.1.50" 200 (some (.object scenarioReport)))
      (Process.start exactOps emptyEnv)).process _ 200 _ rfl rfl rfl).2

/-- C3 fails: after a cycle that published the scenario report, a cycle whose response body is
the empty object `{}` logs nothing and sets all six gauges to 0. -/
theorem empty_object_resets_gauges :
    (fetchMetrics exactOps (answering "192.168.1.50" 200 (some (.object scenarioReport)))
        (Process.start exactOps emptyEnv)).process.gauges
      = ⟨⟨125, 1⟩, ⟨4400, 0⟩, ⟨1, 0⟩, ⟨213, 1⟩, ⟨10000, 0⟩, ⟨3600, 0⟩⟩ ∧
    (fetchMetrics exactOps (answering "192.168.1.50" 200 (some (.object [])))
        (fetchMetrics exactOps (answering "192.168.1.50" 200 (some (.object scenarioReport)))
          (Process.start exactOps emptyEnv)).process).process.gauges
      = ⟨⟨0, 0⟩, ⟨0, 0⟩, ⟨0, 0⟩, ⟨0, 0⟩, ⟨0, 0⟩, ⟨0, 0⟩⟩ ∧
    (fetchMetrics exactOps (answering "192.168.1.50" 200 (some (.object [])))
        (fetchMetrics exactOps (answering "192.168.1.50" 200 (some (.object scenarioReport)))
          (Process.start exactOps emptyEnv)).process).process.log = [] := by
  decide

/-- C7, as the code has it: the host is looked up in every cycle. A cycle whose configuration
loads requests `http://<h>/report` for the value `h` that `IP_WIFI_SWITCH` has in the
environment after that load (the empty string when it is not set). Loading keeps the variables
already present, so from a state whose environment sets the variable to `h` every request of
the poll loop goes to `http://h/report`, whatever the configuration files of the cycles hold. -/
theorem pollLoop_requests_follow_environment {F : Type} (fm : Float64Ops F) (p : Process F)
    (h : String) (ws : List World) (hset : p.env "IP_WIFI_SWITCH" = some h) :
    (∀ (q : Process F) (w : World) (env : Env), godotenvLoad w.dotenv q.env = some env →
      (fetchMetrics fm w q).process.requests
        = q.requests ++ [reportURL (getenv env "IP_WIFI_SWITCH")]) ∧
    ∃ k, k ≤ ws.length ∧
      (pollLoop fm ws p).process.requests = p.requests ++ List.replicate k (reportURL h) :=
  ⟨fun q w env hload => (fetchMetrics_requests fm w q env hload).2,
    pollLoop_requests_of_host_set fm h ws p hset⟩

/-- C7 as amended, on two cycles whose configuration files name different hosts, from an
environment that sets the host already. -/
theorem pollLoop_requests_follow_environment_witness :
    ∃ k, k ≤ 2 ∧
      (pollLoop exactOps [unreachable "10.0.0.7", unreachable "10.0.0.8"]
        (Process.start exactOps (hostEnv "192.168.1.50"))).process.requests
        = [] ++ List.replicate k "http://192.168.1.50/report" :=
  (pollLoop_requests_follow_environment exactOps
    (Process.start exactOps (hostEnv "192.168.1.50")) "192.168.1.50"
    [unreachable "10.0.0.7", unreachable "10.0.0.8"] rfl).2

/-- C7 fails: the variable is not set in the process environment, the configuration file sets
no host in the first cycle and sets one in the second; the two cycles request different
URLs. -/
theorem requested_url_changes_between_cycles :
    (pollLoop exactOps [withoutHost, unreachable "192.168.1.50"]
        (Process.start exactOps emptyEnv)).process.requests
      = ["http:///report", "http://192.168.1.50/report"] ∧
    "http:///report" ≠ "http://192.168.1.50/report" := by
  decide

/-- C8, as the code has it: when `IP_WIFI_SWITCH` is absent after the configuration has loaded,
the cycle does not exit the process; it hands the URL `http:///report`, with an empty host, to
`http.Get`. -/
theorem fetchMetrics_absent_host_not_fatal {F : Type} (fm : Float64Ops F) (w : World)
    (p : Process F) (env : Env) (hload : godotenvLoad w.dotenv p.env = some env)
    (habsent : env "IP_WIFI_SWITCH" = none) :
    (fetchMetrics fm w p).exitCode = none ∧
    (fetchMetrics fm w p).process.requests = p.requests ++ ["http:///report"] := by
  have h := fetchMetrics_requests fm w p env hload
  have hip : getenv env "IP_WIFI_SWITCH" = "" := by simp [getenv, habsent]
  rw [hip] at h
  exact h

/-- C8 as amended, on a cycle whose configuration file sets no variable. -/
theorem fetchMetrics_absent_host_not_fatal_witness :
    (fetchMetrics exactOps withoutHost (Process.start exactOps emptyEnv)).exitCode = none ∧
    (fetchMetrics exactOps withoutHost (Process.start exactOps emptyEnv)).process.requests
      = [] ++ ["http:///report"] :=
  fetchMetrics_absent_host_not_fatal exactOps withoutHost (Process.start exactOps emptyEnv)
    emptyEnv rfl rfl

/-- C8 fails: with `IP_WIFI_SWITCH` absent from the environment and from the configuration
file, the cycle returns with the process running, after calling `http.Get` and logging its
failure. -/
theorem absent_host_cycle_returns :
    getenv emptyEnv "IP_WIFI_SWITCH" = "" ∧
    godotenvLoad withoutHost.dotenv emptyEnv = some emptyEnv ∧
    (fetchMetrics exactOps withoutHost (Process.start exactOps emptyEnv)).exitCode = none ∧
    (fetchMetrics exactOps withoutHost (Process.start exactOps emptyEnv)).process.requests
      = ["http:///report"] ∧
    (fetchMetrics exactOps withoutHost (Process.start exactOps emptyEnv)).process.log
      = [.errorFetching] :=
  ⟨rfl, rfl, rfl, rfl, rfl⟩

/-- C9, as the code has it: the configuration file is needed in every cycle. When it cannot be
loaded the cycle logs the failure and exits the process with status 1 without a GET, whatever
the process environment holds; when it loads the cycle returns with the process running, and
requests `http://<host>/report` if the environment sets the host. So a cycle exits the process
exactly when its load of the configuration file fails, at startup or later. -/
theorem fetchMetrics_fatal_iff_load_fails {F : Type} (fm : Float64Ops F) (w : World)
    (p : Process F) :
    (w.dotenv = none →
      (fetchMetrics fm w p).exitCode = some 1 ∧
      (fetchMetrics fm w p).process.requests = p.requests ∧
      (fetchMetrics fm w p).process.log = p.log ++ [.errorLoadingEnv]) ∧
    (w.dotenv ≠ none →
      (fetchMetrics fm w p).exitCode = none ∧
      ∀ h, p.env "IP_WIFI_SWITCH" = some h →
        (fetchMetrics fm w p).process.requests = p.requests ++ [reportURL h]) := by
  constructor
  · intro hnone
    rw [fetchMetrics_load_failed fm w p ((godotenvLoad_eq_none _ _).mpr hnone)]
    exact ⟨rfl, rfl, rfl⟩
  · intro hsome
    cases hload : godotenvLoad w.dotenv p.env with
    | none => exact absurd ((godotenvLoad_eq_none _ _).mp hload) hsome
    | some env =>
      have hreq := fetchMetrics_requests fm w p env hload
      refine ⟨hreq.1, ?_⟩
      intro h hset
      have henv := godotenvLoad_keeps w.dotenv p.env env _ h hload hset
      have hip : getenv env "IP_WIFI_SWITCH" = h := by simp [getenv, henv]
      rw [hreq.2, hip]

/-- C9 as amended, on a cycle without configuration file in a process whose environment sets
the host. -/
theorem fetchMetrics_fatal_iff_load_fails_witness :
    (fetchMetrics exactOps withoutDotenv
        (Process.start exactOps (hostEnv "192.168.1.50"))).exitCode = some 1 ∧
    (fetchMetrics exactOps withoutDotenv
        (Process.start exactOps (hostEnv "192.168.1.50"))).process.requests = [] ∧
    (fetchMetrics exactOps withoutDotenv
        (Process.start exactOps (hostEnv "192.168.1.50"))).process.log
      = [] ++ [.errorLoadingEnv] :=
  (fetchMetrics_fatal_iff_load_fails exactOps withoutDotenv
    (Process.start exactOps (hostEnv "192.168.1.50"))).1 rfl

/-- C9 fails: without configuration file, a cycle in a process whose environment sets the host
exits the process with status 1 and requests nothing; and the same happens in the second cycle
of a loop whose first cycle succeeded. -/
theorem missing_dotenv_exits_process :
    getenv (hostEnv "192.168.1.50") "IP_WIFI_SWITCH" = "192.168.1.50" ∧
    (fetchMetrics exactOps withoutDotenv
        (Process.start exactOps (hostEnv "192.168.1.50"))).exitCode = some 1 ∧
    (fetchMetrics exactOps withoutDotenv
        (Process.start exactOps (hostEnv "192.168.1.50"))).process.requests = [] ∧
    (pollLoop exactOps
        [answering "192.168.1.50" 200 (some (.object scenarioReport)), withoutDotenv]
        (Process.start exactOps (hostEnv "192.168.1.50"))).exitCode = some 1 ∧
    (pollLoop exactOps
        [answering "192.168.1.50" 200 (some (.object scenarioReport)), withoutDotenv]
        (Process.start exactOps (hostEnv "192.168.1.50"))).process.requests
      = ["http://192.168.1.50/report"] := by
  decide

end MyStromSwitchExporter
